import Mathlib

/-!
Verification of the natural-language specification of the DataGPT
natural-language-to-SQL pipeline against its source.

The sanitizer `clean_sql_query` (identical in `app.py` and `chatbot.py`),
the answer synthesizer `generate_friendly_answer` and the per-turn
orchestration of the chat form handler (`app.py`) are embedded shallowly:
strings are lists of characters, the two generation calls and the database
execution are oracles passed as `Except`-valued parameters, and the Python
regular-expression / string primitives used by the source are translated
character by character below.
-/

/-- Python `str.isspace` / regex `\s` (Unicode whitespace as used by
`str.strip()` with no arguments and by `\s` in a `str` pattern). -/
def pyIsSpace (c : Char) : Bool :=
  let n := c.toNat
  (0x09 ≤ n && n ≤ 0x0d) || n == 0x20 || (0x1c ≤ n && n ≤ 0x1f) ||
  n == 0x85 || n == 0xa0 || n == 0x1680 || (0x2000 ≤ n && n ≤ 0x200a) ||
  n == 0x2028 || n == 0x2029 || n == 0x202f || n == 0x205f || n == 0x3000

/-- The line-boundary characters recognised by Python `str.splitlines`. -/
def pyIsLineBreak (c : Char) : Bool :=
  let n := c.toNat
  n == 0x0a || n == 0x0b || n == 0x0c || n == 0x0d || n == 0x1c ||
  n == 0x1d || n == 0x1e || n == 0x85 || n == 0x2028 || n == 0x2029

/-- Worker for `pySplitlines`: `acc` holds the (reversed) characters of the
line being read.  `\r\n` counts as one boundary and a trailing boundary
does not open a new empty line, matching Python `str.splitlines`. -/
def pySplitlinesGo : List Char → List Char → List (List Char)
  | [], acc => [acc.reverse]
  | [c], acc =>
    if pyIsLineBreak c then [acc.reverse] else [(c :: acc).reverse]
  | c :: c2 :: rest, acc =>
    if c = '\r' && c2 = '\n' then
      acc.reverse :: (if rest.isEmpty then [] else pySplitlinesGo rest [])
    else if pyIsLineBreak c then
      acc.reverse :: pySplitlinesGo (c2 :: rest) []
    else
      pySplitlinesGo (c2 :: rest) (c :: acc)

/-- Python `str.splitlines()` on a string given as a character list. -/
def pySplitlines (l : List Char) : List (List Char) :=
  if l.isEmpty then [] else pySplitlinesGo l []

/-- Strip characters satisfying `p` from both ends of a character list:
the common shape of Python `str.strip()` and `str.strip(chars)`. -/
def stripEnds (p : Char → Bool) (l : List Char) : List Char :=
  ((l.dropWhile p).reverse.dropWhile p).reverse

/-- Python `str.strip()` with no arguments (whitespace stripping). -/
def pyStrip (l : List Char) : List Char := stripEnds pyIsSpace l

def backtick : Char := Char.ofNat 0x60
def squote : Char := Char.ofNat 0x27
def dquote : Char := Char.ofNat 0x22

/-- The character set of the source's `sql_query.strip("`'\x22 \n")`:
backtick, single quote, double quote, space, newline. -/
def stripCharsSet : List Char := [backtick, squote, dquote, ' ', '\n']

/-- Step 3 of the sanitizer: `sql_query.strip("`'\x22 \n")`. -/
def strip3 (l : List Char) : List Char :=
  stripEnds (fun c => decide (c ∈ stripCharsSet)) l

/-- A triple-backtick fence marker. -/
def fenceB : List Char := [backtick, backtick, backtick]

/-- A triple-single-quote fence marker. -/
def fenceQ : List Char := [squote, squote, squote]

/-- Match `\s*sql\s*` (case-insensitive, greedy) at the head of `l`;
on success return what remains.  Models the tail of the source regex
`^(```|''')?\s*sql\s*` after the optional fence alternative. -/
def matchSqlTag (l : List Char) : Option (List Char) :=
  match l.dropWhile pyIsSpace with
  | c1 :: c2 :: c3 :: rest =>
    if c1.toLower = 's' ∧ c2.toLower = 'q' ∧ c3.toLower = 'l' then
      some (rest.dropWhile pyIsSpace)
    else none
  | _ => none

/-- Step 1 of the sanitizer:
`re.sub(r"^(```|''')?\s*sql\s*", "", sql_query, flags=re.IGNORECASE)`.
The alternation tries the backtick fence, then the quote fence, then the
empty fence, at position 0 only; the whole pattern must consume `sql`. -/
def sub1 (l : List Char) : List Char :=
  if l.take 3 = fenceB ∨ l.take 3 = fenceQ then
    match matchSqlTag (l.drop 3) with
    | some r => r
    | none =>
      match matchSqlTag l with
      | some r => r
      | none => l
  else
    match matchSqlTag l with
    | some r => r
    | none => l

def isFenceTriple (a b c : Char) : Bool :=
  (a == backtick && b == backtick && c == backtick) ||
  (a == squote && b == squote && c == squote)

/-- Step 2 of the sanitizer: `re.sub(r"(```|''')$", "", sql_query)`.
Without `re.MULTILINE`, `$` matches at the end of the string or just
before a terminating `\n`, so exactly one fence is removed, either at the
very end or immediately before a final newline. -/
def sub2 (l : List Char) : List Char :=
  match l.reverse with
  | '\n' :: c1 :: c2 :: c3 :: rest =>
    if isFenceTriple c3 c2 c1 then ('\n' :: rest).reverse else l
  | c1 :: c2 :: c3 :: rest =>
    if c1 != '\n' && isFenceTriple c3 c2 c1 then rest.reverse else l
  | _ => l

/-- The three textual normalisation steps of `clean_sql_query`, in source
order: fence/`sql`-tag removal, trailing fence removal, end stripping. -/
def stripSteps (l : List Char) : List Char := strip3 (sub2 (sub1 l))

/-- `[line.strip() for line in sql_query.splitlines() if line.strip()]`. -/
def cleanLines (l : List Char) : List (List Char) :=
  ((pySplitlines l).map pyStrip).filter (fun x => !x.isEmpty)

/-- The statement keywords of the sanitizer's scan, in source order. -/
def keywordList : List (List Char) :=
  ["select", "update", "delete", "insert", "with"].map String.data

/-- `line.lower().startswith(('select', 'update', 'delete', 'insert', 'with'))`,
with case handled at the ASCII level as by `Char.toLower`. -/
def startsWithKeyword (l : List Char) : Bool :=
  keywordList.any (fun k => k.isPrefixOf (l.map Char.toLower))

/-- The Query Sanitizer `clean_sql_query` of `app.py` / `chatbot.py`:
run the three strip steps, split into non-empty trimmed lines, return the
first statement-keyword line, else the first line, else the stripped
string itself. -/
def clean_sql_query (l : List Char) : List Char :=
  match (cleanLines (stripSteps l)).find? startsWithKeyword with
  | some line => line
  | none => (cleanLines (stripSteps l)).headD (stripSteps l)

/-- `clean_sql_query` on `String`. -/
def clean_sql_queryS (s : String) : String :=
  String.mk (clean_sql_query s.data)

/-- The fencing/quoting characters named by the SanitizedQuery invariant. -/
def quoteFenceChars : List Char := [backtick, squote, dquote]

/-- A single-line string: one containing no `splitlines` boundary. -/
def isSingleLine (l : List Char) : Bool := l.all (fun c => !pyIsLineBreak c)

/-- No fencing or quote character at the front of the string. -/
def noLeadingArtifact (l : List Char) : Bool :=
  match l with
  | [] => true
  | c :: _ => !(quoteFenceChars.contains c)

/-- The spec's SanitizedQuery invariant: non-empty, single-line, lowercased
form beginning with a statement keyword, no leading fencing/quote artifact. -/
def sanitizedQueryInv (l : List Char) : Bool :=
  !l.isEmpty && isSingleLine l && startsWithKeyword l && noLeadingArtifact l

/-- Modelled from the spec: the spec's step 3 as worded by claim C6, stripping
backticks, quotes and every whitespace character (tabs and carriage returns
included) from both ends; stated for comparison with the source's `strip3`. -/
def strip3Spec (l : List Char) : List Char :=
  stripEnds (fun c => decide (c ∈ quoteFenceChars) || pyIsSpace c) l

/-- Python `str.strip()` on `String`. -/
def pyStripS (s : String) : String := String.mk (pyStrip s.data)

/-- The result frame `pd.DataFrame(rows, columns=result.keys())` built by the
chat handler from execution output: column names and materialized rows. -/
structure ResultDF where
  cols : List String
  rows : List (List String)
deriving DecidableEq

/-- `result_df.empty`: true when either axis has length zero. -/
def ResultDF.isEmptyDF (df : ResultDF) : Bool :=
  df.rows.isEmpty || df.cols.isEmpty

/-- The summary prompt f-string of `generate_friendly_answer` (`app.py`),
with the rendered markdown table supplied as `tableStr`. -/
def friendlyPrompt (question tableStr : String) : String :=
  "Given the user's question and the following SQL result table, provide a concise, user-friendly, conversational answer (do not repeat the table, just summarize the result in plain English):\nQuestion: " ++
    question ++ "\nSQL Result Table:\n" ++ tableStr ++ "\nAnswer:"

/-- The Answer Synthesizer `generate_friendly_answer(model, question, result_df)`
of `app.py`.  External collaborators are parameters: `gen` models
`model.generate_content(prompt).text` (an exception is `Except.error`) and
`toMd` models `result_df.to_markdown(index=False)`. -/
def generate_friendly_answer (gen : String → Except String String)
    (toMd : ResultDF → String) (question : String) (df : ResultDF) :
    Except String String :=
  if df.isEmptyDF then Except.ok "No results found."
  else (gen (friendlyPrompt question (toMd df))).map pyStripS

/-- One entry of `st.session_state.history`: the success dictionary carries
question, sql, result rows and friendly answer; the failure dictionary
carries question, sql (or the literal `"N/A"`) and the error text. -/
inductive HistoryEntry where
  | success (question sql : String) (resultDf : ResultDF) (friendlyAnswer : String)
  | failure (question sql error : String)
deriving DecidableEq

def HistoryEntry.questionOf : HistoryEntry → String
  | HistoryEntry.success q _ _ _ => q
  | HistoryEntry.failure q _ _ => q

def HistoryEntry.isSuccessEntry : HistoryEntry → Bool
  | HistoryEntry.success _ _ _ _ => true
  | HistoryEntry.failure _ _ _ => false

/-- The chat form submission handler of `app.py` (lines 137–157), one turn:
`genSql` models the outcome of `generate_sql_query` (its stripped response
text, or the exception text), `execute` models
`connection.execute(text(cleaned_sql))` with `fetchall` and frame
construction, `gen`/`toMd` as in `generate_friendly_answer`.  An exception
anywhere lands in the `except` branch, whose `sql` field is the cleaned
query when `cleaned_sql` was already bound and `"N/A"` otherwise. -/
def handleTurn (genSql : Except String String)
    (execute : String → Except String ResultDF)
    (gen : String → Except String String) (toMd : ResultDF → String)
    (userInput : String) : HistoryEntry :=
  match genSql with
  | Except.error e => HistoryEntry.failure userInput "N/A" e
  | Except.ok raw =>
    match execute (clean_sql_queryS raw) with
    | Except.error e => HistoryEntry.failure userInput (clean_sql_queryS raw) e
    | Except.ok df =>
      match generate_friendly_answer gen toMd userInput df with
      | Except.error e => HistoryEntry.failure userInput (clean_sql_queryS raw) e
      | Except.ok ans => HistoryEntry.success userInput (clean_sql_queryS raw) df ans

/-- A submitted turn appends its single outcome to the session history. -/
def submitTurn (history : List HistoryEntry) (genSql : Except String String)
    (execute : String → Except String ResultDF)
    (gen : String → Except String String) (toMd : ResultDF → String)
    (userInput : String) : List HistoryEntry :=
  history ++ [handleTurn genSql execute gen toMd userInput]

/-! ### Generic facts about end-stripping -/

theorem take_one_dropWhile_false {α : Type} (p : α → Bool) (l : List α) :
    ∀ c ∈ (l.dropWhile p).take 1, p c = false := by
  induction l with
  | nil => simp
  | cons a t ih =>
    by_cases ha : p a
    · simpa [List.dropWhile_cons, ha] using ih
    · simp only [Bool.not_eq_true] at ha
      simp [List.dropWhile_cons, ha]

theorem dropWhile_eq_self_of_take_one {α : Type} (p : α → Bool) (l : List α)
    (h : ∀ c ∈ l.take 1, p c = false) : l.dropWhile p = l := by
  cases l with
  | nil => rfl
  | cons a t =>
    have : p a = false := h a (by simp)
    simp [List.dropWhile_cons, this]

theorem dropWhile_idem {α : Type} (p : α → Bool) (l : List α) :
    (l.dropWhile p).dropWhile p = l.dropWhile p :=
  dropWhile_eq_self_of_take_one p _ (take_one_dropWhile_false p l)

theorem stripEnds_reverse (p : Char → Bool) (l : List Char) :
    (stripEnds p l).reverse = (l.dropWhile p).reverse.dropWhile p := by
  simp [stripEnds]

theorem stripEnds_prefix_dropWhile (p : Char → Bool) (l : List Char) :
    stripEnds p l <+: l.dropWhile p := by
  have h : (l.dropWhile p).reverse.dropWhile p <:+ (l.dropWhile p).reverse :=
    List.dropWhile_suffix p
  apply (@List.reverse_suffix Char (stripEnds p l) (l.dropWhile p)).mp
  rw [stripEnds_reverse]
  exact h

theorem take_one_stripEnds_false (p : Char → Bool) (l : List Char) :
    ∀ c ∈ (stripEnds p l).take 1, p c = false := by
  intro c hc
  obtain ⟨s, hs⟩ := stripEnds_prefix_dropWhile p l
  cases hst : stripEnds p l with
  | nil => rw [hst] at hc; simp at hc
  | cons a t =>
    rw [hst] at hc
    simp at hc
    subst hc
    apply take_one_dropWhile_false p l
    rw [hst] at hs
    rw [← hs]
    simp

theorem take_one_reverse_stripEnds_false (p : Char → Bool) (l : List Char) :
    ∀ c ∈ (stripEnds p l).reverse.take 1, p c = false := by
  rw [stripEnds_reverse]
  exact take_one_dropWhile_false p _

theorem stripEnds_idem (p : Char → Bool) (l : List Char) :
    stripEnds p (stripEnds p l) = stripEnds p l := by
  have h1 : (stripEnds p l).dropWhile p = stripEnds p l :=
    dropWhile_eq_self_of_take_one p _ (take_one_stripEnds_false p l)
  have h2 : (stripEnds p l).reverse.dropWhile p = (stripEnds p l).reverse := by
    rw [stripEnds_reverse]
    exact dropWhile_idem p _
  calc stripEnds p (stripEnds p l)
      = (((stripEnds p l).dropWhile p).reverse.dropWhile p).reverse := rfl
    _ = ((stripEnds p l).reverse.dropWhile p).reverse := by rw [h1]
    _ = (stripEnds p l).reverse.reverse := by rw [h2]
    _ = stripEnds p l := List.reverse_reverse _

theorem stripEnds_subset (p : Char → Bool) (l : List Char) :
    stripEnds p l ⊆ l :=
  ((stripEnds_prefix_dropWhile p l).sublist.trans (List.dropWhile_sublist p)).subset

theorem stripEnds_decomp (p : Char → Bool) (l : List Char) :
    ∃ a b, l = a ++ stripEnds p l ++ b ∧
      (∀ c ∈ a, p c = true) ∧ (∀ c ∈ b, p c = true) := by
  refine ⟨l.takeWhile p, ((l.dropWhile p).reverse.takeWhile p).reverse, ?_, ?_, ?_⟩
  · have hA : l.dropWhile p =
        stripEnds p l ++ ((l.dropWhile p).reverse.takeWhile p).reverse := by
      calc l.dropWhile p
          = (l.dropWhile p).reverse.reverse := (List.reverse_reverse _).symm
        _ = ((l.dropWhile p).reverse.takeWhile p ++
              (l.dropWhile p).reverse.dropWhile p).reverse := by
            rw [List.takeWhile_append_dropWhile]
        _ = ((l.dropWhile p).reverse.dropWhile p).reverse ++
              ((l.dropWhile p).reverse.takeWhile p).reverse := by
            rw [List.reverse_append]
        _ = stripEnds p l ++ ((l.dropWhile p).reverse.takeWhile p).reverse := rfl
    calc l = l.takeWhile p ++ l.dropWhile p :=
          (List.takeWhile_append_dropWhile p l).symm
      _ = l.takeWhile p ++ (stripEnds p l ++
            ((l.dropWhile p).reverse.takeWhile p).reverse) := by rw [← hA]
      _ = l.takeWhile p ++ stripEnds p l ++
            ((l.dropWhile p).reverse.takeWhile p).reverse := by
          rw [List.append_assoc]
  · intro c hc
    exact List.mem_takeWhile_imp hc
  · intro c hc
    rw [List.mem_reverse] at hc
    exact List.mem_takeWhile_imp hc

/-! ### Facts about `pySplitlines` -/

theorem pySplitlinesGo_all_not_break (l : List Char) :
    ∀ acc, (∀ c ∈ l, pyIsLineBreak c = false) →
      pySplitlinesGo l acc = [acc.reverse ++ l] := by
  induction l with
  | nil => intro acc _; simp [pySplitlinesGo]
  | cons c rest ih =>
    intro acc h
    have hc : pyIsLineBreak c = false := h c (by simp)
    cases rest with
    | nil => simp [pySplitlinesGo, hc]
    | cons c2 r2 =>
      have hcr : c ≠ '\r' := by
        intro hEq
        subst hEq
        have h0 : pyIsLineBreak '\r' = true := by decide
        rw [h0] at hc
        cases hc
      have h2 : ∀ x ∈ c2 :: r2, pyIsLineBreak x = false := by
        intro x hx
        exact h x (by simp [hx])
      rw [pySplitlinesGo, if_neg (by simp [hcr]), if_neg (by simp [hc]),
        ih (c :: acc) h2]
      simp

theorem mem_pySplitlinesGo_no_break :
    ∀ (n : Nat) (l acc : List Char), l.length ≤ n →
      (∀ c ∈ acc, pyIsLineBreak c = false) →
      ∀ m ∈ pySplitlinesGo l acc, ∀ c ∈ m, pyIsLineBreak c = false := by
  intro n
  induction n with
  | zero =>
    intro l acc hlen hacc m hm c hc
    have hl : l = [] := List.length_eq_zero.mp (Nat.le_zero.mp hlen)
    subst hl
    simp [pySplitlinesGo] at hm
    subst hm
    exact hacc c (by simpa using hc)
  | succ n ih =>
    intro l acc hlen hacc m hm c hc
    cases l with
    | nil =>
      simp [pySplitlinesGo] at hm
      subst hm
      exact hacc c (by simpa using hc)
    | cons a rest =>
      cases rest with
      | nil =>
        by_cases ha : pyIsLineBreak a = true
        · rw [pySplitlinesGo, if_pos ha] at hm
          simp at hm
          subst hm
          exact hacc c (by simpa using hc)
        · rw [pySplitlinesGo, if_neg ha] at hm
          simp at hm
          subst hm
          simp at hc
          rcases hc with hc | hc
          · exact hacc c hc
          · subst hc
            simpa using ha
      | cons a2 rest2 =>
        have hlen2 : rest2.length ≤ n := by
          simp at hlen
          omega
        have hlen1 : (a2 :: rest2).length ≤ n := by
          simp at hlen ⊢
          omega
        by_cases h1 : a = '\r' ∧ a2 = '\n'
        · rw [pySplitlinesGo, if_pos (by simp [h1.1, h1.2])] at hm
          rcases List.mem_cons.mp hm with hm | hm
          · subst hm
            exact hacc c (by simpa using hc)
          · by_cases hr : rest2.isEmpty
            · rw [if_pos hr] at hm
              simp at hm
            · rw [if_neg hr] at hm
              exact ih rest2 [] hlen2 (by simp) m hm c hc
        · by_cases h2 : pyIsLineBreak a = true
          · rw [pySplitlinesGo, if_neg (by simpa using h1), if_pos h2] at hm
            rcases List.mem_cons.mp hm with hm | hm
            · subst hm
              exact hacc c (by simpa using hc)
            · exact ih (a2 :: rest2) [] hlen1 (by simp) m hm c hc
          · rw [pySplitlinesGo, if_neg (by simpa using h1), if_neg h2] at hm
            refine ih (a2 :: rest2) (a :: acc) hlen1 ?_ m hm c hc
            intro x hx
            rcases List.mem_cons.mp hx with hx | hx
            · subst hx
              simpa using h2
            · exact hacc x hx

theorem mem_pySplitlines_no_break (s m : List Char) (hm : m ∈ pySplitlines s) :
    ∀ c ∈ m, pyIsLineBreak c = false := by
  unfold pySplitlines at hm
  by_cases hs : s.isEmpty
  · rw [if_pos hs] at hm
    simp at hm
  · rw [if_neg hs] at hm
    exact mem_pySplitlinesGo_no_break s.length s [] (Nat.le_refl _) (by simp) m hm

theorem pySplitlines_singleton (l : List Char) (hne : l ≠ [])
    (h : ∀ c ∈ l, pyIsLineBreak c = false) : pySplitlines l = [l] := by
  unfold pySplitlines
  rw [if_neg (by simpa using hne), pySplitlinesGo_all_not_break l [] h]
  simp

/-! ### Facts about `cleanLines` and the keyword scan -/

theorem mem_cleanLines (s m : List Char) (h : m ∈ cleanLines s) :
    m ≠ [] ∧ pyStrip m = m ∧ ∀ c ∈ m, pyIsLineBreak c = false := by
  unfold cleanLines at h
  rw [List.mem_filter] at h
  obtain ⟨hmem, hne⟩ := h
  rw [List.mem_map] at hmem
  obtain ⟨m0, hm0, rfl⟩ := hmem
  refine ⟨by simpa using hne, stripEnds_idem pyIsSpace m0, ?_⟩
  intro c hc
  exact mem_pySplitlines_no_break s m0 hm0 c (stripEnds_subset pyIsSpace m0 hc)

theorem cleanLines_of_fixed (y : List Char) (hne : y ≠ []) (hstrip : pyStrip y = y)
    (hnb : ∀ c ∈ y, pyIsLineBreak c = false) : cleanLines y = [y] := by
  unfold cleanLines
  rw [pySplitlines_singleton y hne hnb]
  simp [hstrip, hne]

theorem find?_decomp {α : Type} (p : α → Bool) :
    ∀ (l : List α) (r : α), l.find? p = some r →
      ∃ pre post, l = pre ++ r :: post ∧ ∀ x ∈ pre, p x = false := by
  intro l
  induction l with
  | nil => intro r h; simp at h
  | cons a t ih =>
    intro r h
    by_cases ha : p a = true
    · rw [List.find?_cons_of_pos _ ha] at h
      cases h
      exact ⟨[], t, rfl, by simp⟩
    · rw [List.find?_cons_of_neg _ ha] at h
      obtain ⟨pre, post, rfl, hpre⟩ := ih r h
      refine ⟨a :: pre, post, by simp, ?_⟩
      intro x hx
      rcases List.mem_cons.mp hx with hx | hx
      · subst hx
        simpa using ha
      · exact hpre x hx

/-- If the sanitized query of a run is left fixed by the three strip steps and
its own line scan reproduces it, a second run reproduces it.  Core of the
amended idempotence statement. -/
theorem clean_sql_query_of_singleton (y : List Char)
    (hstep : stripSteps y = y) (hlines : cleanLines y = [y]) :
    clean_sql_query y = y := by
  unfold clean_sql_query
  rw [hstep, hlines]
  cases hf : List.find? startsWithKeyword [y] with
  | none => simp
  | some r =>
    have := List.mem_of_find?_eq_some hf
    simp at this
    subst this
    simp

/-! ### C1: idempotence of the sanitizer -/

/-- C1 counterexample: the sanitizer is not idempotent.  On `"sqlsql"` the
leading-`sql` regex fires once and the keyword scan keeps `"sql"`, but a
second run strips that `sql` prefix as well, yielding the empty string. -/
theorem sanitize_not_idempotent :
    clean_sql_queryS "sqlsql" = "sql" ∧ clean_sql_queryS "sql" = "" ∧
    clean_sql_queryS (clean_sql_queryS "sqlsql") ≠ clean_sql_queryS "sqlsql" := by
  exact ⟨rfl, rfl, by decide⟩

/-- C1 (amended): `clean_sql_query` is idempotent on every input whose
sanitized output is left unchanged by the three strip steps (leading
fence/`sql` removal, trailing fence removal, end stripping). -/
theorem sanitize_idem_of_strip_fixed (l : List Char)
    (h : stripSteps (clean_sql_query l) = clean_sql_query l) :
    clean_sql_query (clean_sql_query l) = clean_sql_query l := by
  cases hf : (cleanLines (stripSteps l)).find? startsWithKeyword with
  | some m =>
    have hy : clean_sql_query l = m := by
      unfold clean_sql_query
      rw [hf]
    have hm := List.mem_of_find?_eq_some hf
    obtain ⟨hne, hstrip, hnb⟩ := mem_cleanLines _ _ hm
    rw [hy] at h ⊢
    exact clean_sql_query_of_singleton m h (cleanLines_of_fixed m hne hstrip hnb)
  | none =>
    cases hls : cleanLines (stripSteps l) with
    | nil =>
      have hy : clean_sql_query l = stripSteps l := by
        unfold clean_sql_query
        rw [hf, hls]
        rfl
      rw [hy] at h ⊢
      unfold clean_sql_query
      rw [h, hls]
      rfl
    | cons m rest =>
      have hy : clean_sql_query l = m := by
        unfold clean_sql_query
        rw [hf, hls]
        rfl
      have hm : m ∈ cleanLines (stripSteps l) := by
        rw [hls]
        simp
      obtain ⟨hne, hstrip, hnb⟩ := mem_cleanLines _ _ hm
      rw [hy] at h ⊢
      exact clean_sql_query_of_singleton m h (cleanLines_of_fixed m hne hstrip hnb)

/-- C1 witness: a fixed point of the strip steps on which idempotence holds. -/
theorem sanitize_idem_of_strip_fixed_witness :
    clean_sql_query ("SELECT 1").data = clean_sql_query ("SELECT 1").data ∧
    clean_sql_query (clean_sql_query ("SELECT 1").data) =
      clean_sql_query ("SELECT 1").data :=
  ⟨rfl, sanitize_idem_of_strip_fixed ("SELECT 1").data (by decide)⟩

/-! ### C3: the SanitizedQuery invariant -/

theorem first_char_of_keyword (r : List Char) (h : startsWithKeyword r = true) :
    ∃ c0 t, r = c0 :: t ∧ Char.toLower c0 ∈ ['s', 'u', 'd', 'i', 'w'] := by
  unfold startsWithKeyword at h
  rw [List.any_eq_true] at h
  obtain ⟨k, hk, hpre⟩ := h
  rw [List.isPrefixOf_iff_prefix] at hpre
  obtain ⟨t0, ht⟩ := hpre
  simp [keywordList] at hk
  cases r with
  | nil =>
    rcases hk with rfl | rfl | rfl | rfl | rfl <;> simp at ht
  | cons c0 t =>
    refine ⟨c0, t, rfl, ?_⟩
    rcases hk with rfl | rfl | rfl | rfl | rfl <;>
      · simp at ht
        simp [ht.1.symm]

/-- C3 counterexample: inputs without a statement-keyword line produce outputs
violating the claimed invariant; `"hello world"` is returned unchanged and
does not begin with a statement keyword. -/
theorem sanitized_invariant_violated :
    clean_sql_queryS "hello world" = "hello world" ∧
    sanitizedQueryInv (clean_sql_queryS "hello world").data = false := by
  exact ⟨rfl, by decide⟩

/-- C3 (amended): whenever the keyword scan finds a matching line, the
sanitizer's output is non-empty, single-line, begins (case-insensitively)
with one of select/insert/update/delete/with, and carries no leading
fencing or quote artifact. -/
theorem sanitized_invariant_of_keyword (l ln : List Char)
    (hmem : ln ∈ cleanLines (stripSteps l))
    (hkw : startsWithKeyword ln = true) :
    sanitizedQueryInv (clean_sql_query l) = true := by
  have hsome : ((cleanLines (stripSteps l)).find? startsWithKeyword).isSome :=
    List.find?_isSome.mpr ⟨ln, hmem, hkw⟩
  obtain ⟨r, hr⟩ := Option.isSome_iff_exists.mp hsome
  have hy : clean_sql_query l = r := by
    unfold clean_sql_query
    rw [hr]
  have hkr : startsWithKeyword r = true := List.find?_some hr
  obtain ⟨hne, hstrip, hnb⟩ := mem_cleanLines _ _ (List.mem_of_find?_eq_some hr)
  rw [hy]
  have h1 : (!r.isEmpty) = true := by
    cases r with
    | nil => cases hne rfl
    | cons a t => rfl
  have h2 : isSingleLine r = true := by
    unfold isSingleLine
    rw [List.all_eq_true]
    intro c hc
    simp [hnb c hc]
  have h4 : noLeadingArtifact r = true := by
    obtain ⟨c0, t, rfl, hc0⟩ := first_char_of_keyword r hkr
    unfold noLeadingArtifact
    cases hq : quoteFenceChars.contains c0
    · simp only [noLeadingArtifact, hq]
      rfl
    · exfalso
      have hmemq : c0 ∈ quoteFenceChars := by simpa using hq
      simp [quoteFenceChars, backtick, squote, dquote] at hmemq
      rcases hmemq with rfl | rfl | rfl <;> exact absurd hc0 (by decide)
  simp only [sanitizedQueryInv, Bool.and_eq_true]
  exact ⟨⟨⟨h1, h2⟩, hkr⟩, h4⟩

/-- C3 witness: a concrete keyword input satisfying the amended invariant. -/
theorem sanitized_invariant_of_keyword_witness :
    sanitizedQueryInv (clean_sql_query ("select name from employees").data) = true :=
  sanitized_invariant_of_keyword ("select name from employees").data
    ("select name from employees").data (by decide) (by decide)

/-! ### C4, C5: fallback and keyword priority -/

/-- C4: when no non-empty trimmed line of the stripped input begins with a
statement keyword, the sanitizer returns the first non-empty trimmed line,
and the stripped-but-unsplit string when there is no such line. -/
theorem sanitize_fallback (l : List Char)
    (h : ∀ ln ∈ cleanLines (stripSteps l), startsWithKeyword ln = false) :
    clean_sql_query l = (cleanLines (stripSteps l)).headD (stripSteps l) := by
  have hf : (cleanLines (stripSteps l)).find? startsWithKeyword = none := by
    rw [List.find?_eq_none]
    intro x hx
    simp [h x hx]
  unfold clean_sql_query
  rw [hf]

/-- C4 witness: `"just some text"` has no keyword line and sanitizes to
itself, its first non-empty line. -/
theorem sanitize_fallback_witness :
    clean_sql_query ("just some text").data = ("just some text").data :=
  (sanitize_fallback ("just some text").data (by decide)).trans (by rfl)

/-- C5: when some non-empty trimmed line begins with a statement keyword, the
sanitizer returns the first such line in order, past any earlier
non-matching lines. -/
theorem sanitize_keyword_priority (l ln : List Char)
    (hmem : ln ∈ cleanLines (stripSteps l))
    (hkw : startsWithKeyword ln = true) :
    ∃ pre post r, cleanLines (stripSteps l) = pre ++ r :: post ∧
      (∀ x ∈ pre, startsWithKeyword x = false) ∧
      startsWithKeyword r = true ∧ clean_sql_query l = r := by
  have hsome : ((cleanLines (stripSteps l)).find? startsWithKeyword).isSome :=
    List.find?_isSome.mpr ⟨ln, hmem, hkw⟩
  obtain ⟨r, hr⟩ := Option.isSome_iff_exists.mp hsome
  obtain ⟨pre, post, heq, hpre⟩ := find?_decomp _ _ _ hr
  refine ⟨pre, post, r, heq, hpre, List.find?_some hr, ?_⟩
  unfold clean_sql_query
  rw [hr]

/-- C5 witness: the spec's example, where the keyword line follows a comment
line and still wins. -/
theorem sanitize_keyword_priority_witness :
    (∃ pre post r,
      cleanLines (stripSteps ("-- comment\nSELECT * FROM t").data) =
        pre ++ r :: post ∧
      (∀ x ∈ pre, startsWithKeyword x = false) ∧
      startsWithKeyword r = true ∧
      clean_sql_query ("-- comment\nSELECT * FROM t").data = r) ∧
    clean_sql_queryS "-- comment\nSELECT * FROM t" = "SELECT * FROM t" :=
  ⟨sanitize_keyword_priority ("-- comment\nSELECT * FROM t").data
    ("SELECT * FROM t").data (by decide) (by decide), by rfl⟩

/-! ### C6: the end-stripping step -/

/-- C6 counterexample: step 3 strips only backtick, quotes, space and
newline; a tab is left in place, unlike the spec-worded `strip3Spec`
which strips all whitespace, and the difference is visible end to end. -/
theorem strip_tab_not_stripped :
    strip3 ['\t'] = ['\t'] ∧ strip3Spec ['\t'] = [] ∧
    strip3 ['\t'] ≠ strip3Spec ['\t'] ∧
    clean_sql_queryS "\t" = "\t" := by
  exact ⟨by decide, by decide, by decide, rfl⟩

/-- C6 (amended): step 3 removes from both ends exactly characters of the
set backtick, single quote, double quote, space, newline, and the result's
two ends carry no character of that set. -/
theorem strip3_characterization (l : List Char) :
    ∃ a b, l = a ++ strip3 l ++ b ∧
      (∀ c ∈ a, c ∈ stripCharsSet) ∧ (∀ c ∈ b, c ∈ stripCharsSet) ∧
      (∀ c ∈ (strip3 l).take 1, c ∉ stripCharsSet) ∧
      (∀ c ∈ (strip3 l).reverse.take 1, c ∉ stripCharsSet) := by
  obtain ⟨a, b, heq, ha, hb⟩ :=
    stripEnds_decomp (fun c => decide (c ∈ stripCharsSet)) l
  refine ⟨a, b, heq, ?_, ?_, ?_, ?_⟩
  · intro c hc
    simpa using ha c hc
  · intro c hc
    simpa using hb c hc
  · intro c hc
    have := take_one_stripEnds_false (fun c => decide (c ∈ stripCharsSet)) l c hc
    simpa using this
  · intro c hc
    have :=
      take_one_reverse_stripEnds_false (fun c => decide (c ∈ stripCharsSet)) l c hc
    simpa using this

/-- C6 witness: the characterization at a concrete input. -/
theorem strip3_characterization_witness :
    ∃ a b, ("` ok `").data = a ++ strip3 ("` ok `").data ++ b ∧
      (∀ c ∈ a, c ∈ stripCharsSet) ∧ (∀ c ∈ b, c ∈ stripCharsSet) ∧
      (∀ c ∈ (strip3 ("` ok `").data).take 1, c ∉ stripCharsSet) ∧
      (∀ c ∈ (strip3 ("` ok `").data).reverse.take 1, c ∉ stripCharsSet) :=
  strip3_characterization ("` ok `").data

/-! ### C7: fencing removal -/

/-- C7: the fenced input with an `sql` tag sanitizes to exactly `SELECT 1`. -/
theorem sanitize_fence_example :
    clean_sql_queryS "```sql\nSELECT 1\n```" = "SELECT 1" := by rfl

/-! ### C10: the `sql` prefix is stripped even without a fence -/

/-- C10: the leading-fence regex also fires with the empty fence alternative,
so any input beginning with `sql` (case-insensitively) loses that prefix and
the following whitespace before line selection; `"sqlite_master"` becomes
`"ite_master"`. -/
theorem sql_prefix_stripped :
    (∀ (c1 c2 c3 : Char) (l : List Char), c1 ∈ ['s', 'S'] → c2 ∈ ['q', 'Q'] →
      c3 ∈ ['l', 'L'] → sub1 (c1 :: c2 :: c3 :: l) = l.dropWhile pyIsSpace) ∧
    clean_sql_queryS "sqlite_master" = "ite_master" := by
  constructor
  · intro c1 c2 c3 l h1 h2 h3
    simp at h1 h2 h3
    rcases h1 with rfl | rfl <;> rcases h2 with rfl | rfl <;>
      rcases h3 with rfl | rfl <;> rfl
  · rfl

/-- C10 witness: the prefix lemma applied at `"sql SELECT 1"`. -/
theorem sql_prefix_stripped_witness :
    sub1 ("sql SELECT 1").data = ("SELECT 1").data :=
  (sql_prefix_stripped.1 's' 'q' 'l' (' ' :: ("SELECT 1").data)
    (by decide) (by decide) (by decide)).trans (by rfl)

/-! ### C8: the Answer Synthesizer -/

/-- C8: on a zero-row result set the synthesizer returns exactly the literal
`"No results found."` for every generation oracle (so no generation call can
influence the result); on a result set with rows and named columns it invokes
generation on the summary prompt and returns the trimmed text output. -/
theorem friendly_answer_spec :
    (∀ (gen : String → Except String String) (toMd : ResultDF → String)
      (q : String) (df : ResultDF), df.rows = [] →
      generate_friendly_answer gen toMd q df = Except.ok "No results found.") ∧
    (∀ (gen : String → Except String String) (toMd : ResultDF → String)
      (q : String) (df : ResultDF), df.rows ≠ [] → df.cols ≠ [] →
      generate_friendly_answer gen toMd q df =
        (gen (friendlyPrompt q (toMd df))).map pyStripS) := by
  constructor
  · intro gen toMd q df h
    unfold generate_friendly_answer ResultDF.isEmptyDF
    rw [h]
    rfl
  · intro gen toMd q df h1 h2
    unfold generate_friendly_answer ResultDF.isEmptyDF
    rw [if_neg]
    simp [h1, h2]

/-- C8 witness: both branches at concrete result sets and a concrete oracle. -/
theorem friendly_answer_spec_witness :
    generate_friendly_answer (fun _ => Except.ok " five ") (fun _ => "T") "q"
      ⟨["c"], []⟩ = Except.ok "No results found." ∧
    generate_friendly_answer (fun _ => Except.ok " five ") (fun _ => "T") "q"
      ⟨["c"], [["5"]]⟩ = Except.ok "five" :=
  ⟨friendly_answer_spec.1 (fun _ => Except.ok " five ") (fun _ => "T") "q"
      ⟨["c"], []⟩ rfl,
    (friendly_answer_spec.2 (fun _ => Except.ok " five ") (fun _ => "T") "q"
      ⟨["c"], [["5"]]⟩ (by decide) (by decide)).trans (by rfl)⟩

/-! ### C2: a failed summary call is fatal to the turn -/

/-- C2 counterexample: with a valid one-row result set and a failing summary
generation call, the appended outcome is the error dictionary carrying the
sanitized query and the exception text, not a success entry with the rows. -/
theorem summary_failure_is_error_outcome :
    handleTurn (Except.ok "SELECT 1")
      (fun _ => Except.ok ⟨["c"], [["1"]]⟩)
      (fun _ => Except.error "model down") (fun _ => "T") "q" =
      HistoryEntry.failure "q" "SELECT 1" "model down" ∧
    (handleTurn (Except.ok "SELECT 1")
      (fun _ => Except.ok ⟨["c"], [["1"]]⟩)
      (fun _ => Except.error "model down") (fun _ => "T") "q").isSuccessEntry =
      false := by
  exact ⟨rfl, rfl⟩

/-- C2 (amended): when execution returns a result set and the summary
generation call fails, the turn appends exactly one error outcome carrying
the question, the sanitized query and the exception text; the result rows
are not part of the history entry. -/
theorem summary_failure_outcome (hist : List HistoryEntry) (raw : String)
    (execute : String → Except String ResultDF)
    (gen : String → Except String String) (toMd : ResultDF → String)
    (q : String) (df : ResultDF) (err : String)
    (hexec : execute (clean_sql_queryS raw) = Except.ok df)
    (hsum : generate_friendly_answer gen toMd q df = Except.error err) :
    submitTurn hist (Except.ok raw) execute gen toMd q =
      hist ++ [HistoryEntry.failure q (clean_sql_queryS raw) err] := by
  unfold submitTurn handleTurn
  simp only [hexec, hsum]

/-- C2 witness: the amended statement at concrete oracles. -/
theorem summary_failure_outcome_witness :
    submitTurn [] (Except.ok "SELECT 2")
      (fun _ => Except.ok ⟨["d"], [["2"]]⟩)
      (fun _ => Except.error "e1") (fun _ => "U") "q2" =
      [HistoryEntry.failure "q2" (clean_sql_queryS "SELECT 2") "e1"] :=
  summary_failure_outcome [] "SELECT 2"
    (fun _ => Except.ok ⟨["d"], [["2"]]⟩)
    (fun _ => Except.error "e1") (fun _ => "U") "q2" ⟨["d"], [["2"]]⟩ "e1"
    rfl rfl

/-! ### C9: every turn appends one complete outcome -/

/-- C9: a submitted turn appends exactly one outcome; it carries the
question; a turn failing before sanitization carries the literal `"N/A"`;
a turn failing at execution carries the sanitized query unchanged together
with the engine's error text. -/
theorem turn_history_outcome (hist : List HistoryEntry)
    (genSql : Except String String)
    (execute : String → Except String ResultDF)
    (gen : String → Except String String) (toMd : ResultDF → String)
    (q : String) :
    submitTurn hist genSql execute gen toMd q =
      hist ++ [handleTurn genSql execute gen toMd q] ∧
    (submitTurn hist genSql execute gen toMd q).length = hist.length + 1 ∧
    (handleTurn genSql execute gen toMd q).questionOf = q ∧
    (∀ e, genSql = Except.error e →
      handleTurn genSql execute gen toMd q = HistoryEntry.failure q "N/A" e) ∧
    (∀ raw e, genSql = Except.ok raw →
      execute (clean_sql_queryS raw) = Except.error e →
      handleTurn genSql execute gen toMd q =
        HistoryEntry.failure q (clean_sql_queryS raw) e) := by
  refine ⟨rfl, by simp [submitTurn], ?_, ?_, ?_⟩
  · cases genSql with
    | error e => rfl
    | ok raw =>
      rcases hE : execute (clean_sql_queryS raw) with e | df
      · simp [handleTurn, hE, HistoryEntry.questionOf]
      · rcases hG : generate_friendly_answer gen toMd q df with e | a
        · simp [handleTurn, hE, hG, HistoryEntry.questionOf]
        · simp [handleTurn, hE, hG, HistoryEntry.questionOf]
  · intro e he
    rw [he]
    rfl
  · intro raw e hraw hexec
    rw [hraw]
    unfold handleTurn
    simp only [hexec]

/-- C9 witness: the `"N/A"` clause at a concrete failing generation call. -/
theorem turn_history_outcome_witness :
    handleTurn (Except.error "boom")
      (fun _ => Except.error "x") (fun _ => Except.ok "y") (fun _ => "T")
      "q3" = HistoryEntry.failure "q3" "N/A" "boom" :=
  (turn_history_outcome [] (Except.error "boom")
    (fun _ => Except.error "x") (fun _ => Except.ok "y") (fun _ => "T")
    "q3").2.2.2.1 "boom" rfl
